import Mathlib

/-!
Shallow embedding of the local-first synchronization engine of the
placemarker repository (a React SPA that tracks visited countries on a
world map).

Embedded code:
* `src/lib/countries.ts` — the country-catalog lookup `alpha3ToCountry`;
* `src/lib/pocketbase.ts` — the remote profile store (PocketBase adapter):
  country-selection CRUD, the homeland field and the sharing flag;
* `src/routes/index.tsx` — the reconciliation effect `syncWithPocketbase`
  and the mutation handlers `handleCountrySelect`, `handleCountryDeselect`,
  `handleClearAll`, `handleHomelandSelect`, `handleHomelandClear`;
* the IndexedDB stores (`countryStorage` keyed by country code, and the
  single-record `userSettingsStorage`), modelled as a keyed list and an
  optional homeland record.

Machine state (IndexedDB contents, PocketBase records, React component
state) is passed explicitly; awaited asynchronous calls are sequenced in
source order; fallible remote calls return `Except`.  Wall-clock
timestamps (`selectedAt`, `created`) are outside the model: records carry
only the identifying alpha-3 code and the display name, and the remote
list's "newest first" (`sort: "-created"`) order is represented by
prepending newly created records.  The external `i18n-iso-countries`
lookup table is abstracted as a function `catalog : String → Option
String` from alpha-3 codes to English display names.
-/

namespace Placemarker

/-- A country as produced by the catalog (`src/lib/countries.ts`):
display name plus ISO-3166 alpha-3 code. -/
structure Country where
  name : String
  alpha3 : String
deriving DecidableEq, Repr

/-- A record of the local `countryStorage` IndexedDB store (`SelectedCountry`
in `src/lib/countryStorage.ts`), minus the wall-clock `selectedAt` field.
The store is keyed by `id`; the current code always writes `id := alpha3`. -/
structure SelectedCountry where
  id : String
  name : String
  alpha3 : String
deriving DecidableEq, Repr

/-- Catalog lookup `alpha3ToCountry` from `src/lib/countries.ts` (lines
576-589): resolve an alpha-3 code to a `Country` via the English name
table; `none` when the code is unknown. -/
def alpha3ToCountry (catalog : String → Option String) (a3 : String) : Option Country :=
  match catalog a3 with
  | some n => some { name := n, alpha3 := a3 }
  | none => none

/-- Conversion performed in `syncWithPocketbase` (index.tsx lines 72-77):
a remote `Country` becomes a `SelectedCountry` with `id := alpha3`. -/
def toSelected (c : Country) : SelectedCountry :=
  { id := c.alpha3, name := c.name, alpha3 := c.alpha3 }

/-!
The JavaScript `Map` used by the merge (index.tsx lines 83-96) is an
insertion-ordered association list: `set` overwrites in place when the key
exists and appends otherwise.
-/

/-- JavaScript `Map.set`: overwrite the existing entry in place, else
append at the end. -/
def mapSet : List (String × SelectedCountry) → String → SelectedCountry →
    List (String × SelectedCountry)
  | [], k, v => [(k, v)]
  | (k', v') :: rest, k, v =>
      if k' = k then (k, v) :: rest else (k', v') :: mapSet rest k v

/-- JavaScript `Map.get` on the association-list model. -/
def lookupKey : List (String × SelectedCountry) → String → Option SelectedCountry
  | [], _ => none
  | (k', v) :: rest, k => if k' = k then some v else lookupKey rest k

/-- First of two options, mirroring how a later `Map.set` shadows an
earlier one when folded from the right. -/
def optOr (a b : Option SelectedCountry) : Option SelectedCountry :=
  match a with
  | some x => some x
  | none => b

/-- Last record of the list carrying the given code (later entries shadow
earlier ones, as in repeated `Map.set`). -/
def lastFind : List SelectedCountry → String → Option SelectedCountry
  | [], _ => none
  | c :: rest, k => optOr (lastFind rest k) (if c.alpha3 = k then some c else none)

/-- The merge map of `syncWithPocketbase` (index.tsx lines 83-94): insert
all local selections, then add/override with the remote selections. -/
def buildCountryMap (localSel remoteSel : List SelectedCountry) :
    List (String × SelectedCountry) :=
  remoteSel.foldl (fun m c => mapSet m c.alpha3 c)
    (localSel.foldl (fun m c => mapSet m c.alpha3 c) [])

/-- `Array.from(countryMap.values())` (index.tsx line 96). -/
def mergedSelections (localSel remoteSel : List SelectedCountry) :
    List SelectedCountry :=
  (buildCountryMap localSel remoteSel).map (fun p => p.2)

/-- Unique record of a keyed selection list holding the given code. -/
def findByCode (cs : List SelectedCountry) (k : String) : Option SelectedCountry :=
  cs.find? (fun c => c.alpha3 = k)

/-!
Remote profile store operations (`src/lib/pocketbase.ts`).  Each operation
takes the authentication flag (`pb.authStore.isValid`) and the relevant
slice of server state; fallible operations return `Except String`.  The
profile's selection records appear as their `country_alpha3` codes, newest
first; profile lookup and creation (`ensureUserProfile`) is assumed to
succeed and is not tracked beyond its fields.
-/

/-- `saveCountrySelection` (pocketbase.ts lines 151-178): requires
authentication; idempotent — creates a record only when no record with the
same profile and code exists. -/
def svcSaveCountrySelection (authed : Bool) (remoteSels : List String)
    (c : Country) : Except String (List String) :=
  if authed then
    Except.ok (if remoteSels.contains c.alpha3 then remoteSels
               else c.alpha3 :: remoteSels)
  else Except.error "User must be authenticated to save country selections"

/-- `removeCountrySelection` (pocketbase.ts lines 180-201): requires
authentication; deletes the first matching record, no-op when absent. -/
def svcRemoveCountrySelection (authed : Bool) (remoteSels : List String)
    (a3 : String) : Except String (List String) :=
  if authed then Except.ok (remoteSels.erase a3)
  else Except.error "User must be authenticated to remove country selections"

/-- `getUserCountrySelections` (pocketbase.ts lines 203-230): returns `[]`
without error when unauthenticated; the record fetch outcome is the
`fetch` argument, and a fetch failure is caught and becomes `[]`; fetched
codes are resolved through the catalog and unresolvable ones are dropped. -/
def svcGetUserCountrySelections (catalog : String → Option String)
    (authed : Bool) (fetch : Except Unit (List String)) :
    Except String (List Country) :=
  if authed then
    match fetch with
    | Except.ok recs => Except.ok (recs.filterMap (alpha3ToCountry catalog))
    | Except.error _ => Except.ok []
  else Except.ok []

/-- `clearAllCountrySelections` (pocketbase.ts lines 232-254): requires
authentication; deletes every record of the profile. -/
def svcClearAllCountrySelections (authed : Bool) (_remoteSels : List String) :
    Except String (List String) :=
  if authed then Except.ok []
  else Except.error "User must be authenticated to clear country selections"

/-- `setHomeland` (pocketbase.ts lines 256-274): requires authentication;
writes the profile's `homeland_alpha3` field. -/
def svcSetHomeland (authed : Bool) (c : Country) :
    Except String (Option String) :=
  if authed then Except.ok (some c.alpha3)
  else Except.error "User must be authenticated to set homeland"

/-- `getHomeland` (pocketbase.ts lines 276-294): returns `null` without
error when unauthenticated, when the field is unset, or when the stored
code is not resolvable in the catalog. -/
def svcGetHomeland (catalog : String → Option String) (authed : Bool)
    (remoteHomeland : Option String) : Except String (Option Country) :=
  Except.ok (if authed then remoteHomeland.bind (alpha3ToCountry catalog)
             else none)

/-- `clearHomeland` (pocketbase.ts lines 296-313): requires authentication;
nulls the profile's `homeland_alpha3` field. -/
def svcClearHomeland (authed : Bool) : Except String (Option String) :=
  if authed then Except.ok none
  else Except.error "User must be authenticated to clear homeland"

/-- `toggleMapSharing` (pocketbase.ts lines 316-335): requires
authentication; flips the profile's `shared` flag and returns the new
value. -/
def svcToggleMapSharing (authed : Bool) (shared : Bool) : Except String Bool :=
  if authed then Except.ok (!shared)
  else Except.error "User must be authenticated to toggle map sharing"

/-- `getMapShareStatus` (pocketbase.ts lines 337-349): returns `false`
without error when unauthenticated or on any failure. -/
def svcGetMapShareStatus (authed : Bool) (shared : Bool) :
    Except String Bool :=
  Except.ok (if authed then shared else false)

/-- Country list assembled by `getSharedProfile` (pocketbase.ts lines
366-379): the profile's selection records resolved through the catalog,
unresolvable codes dropped. -/
def getSharedProfileCountries (catalog : String → Option String)
    (recs : List String) : List Country :=
  recs.filterMap (alpha3ToCountry catalog)

/-!
World state as seen by the route component `Index` (`src/routes/index.tsx`):
the two IndexedDB stores, the PocketBase profile data and the React
component state.  `uiSelected` is the `selectedCountries` state (the
`initialCountries` state mirrors it record-for-record and is not tracked
separately); `uiHomeland` is the `homelandCountry` state.
-/

/-- Mutable state touched by the sync effect and the mutation handlers. -/
structure Env where
  remoteSels : List String
  remoteHomeland : Option String
  localSels : List SelectedCountry
  localHomeland : Option Country
  uiSelected : List String
  uiHomeland : Option Country
deriving DecidableEq, Repr

/-- Result of one run of the sync effect: the updated state, the merged
selection list computed at index.tsx line 96, and the codes for which a
`saveCountrySelection` call was issued (lines 123-136). -/
structure SyncResult where
  env : Env
  merged : List SelectedCountry
  saveCalls : List String
deriving DecidableEq, Repr

/-- Homeland reconciliation step of `syncWithPocketbase` (index.tsx lines
98-112).  Arguments: local homeland, remote homeland as resolved by
`getHomeland`, raw remote homeland field, current in-memory homeland.
Returns the new (local homeland, remote homeland field, in-memory
homeland). -/
def syncHomeland (localHomeland pocketbaseHomeland : Option Country)
    (remoteHomeland : Option String) (uiHomeland : Option Country) :
    Option Country × Option String × Option Country :=
  match pocketbaseHomeland with
  | some p =>
    match localHomeland with
    | some l =>
      if l.alpha3 ≠ p.alpha3 then (some p, remoteHomeland, some p)
      else (some l, remoteHomeland, some p)
    | none => (some p, remoteHomeland, some p)
  | none =>
    match localHomeland with
    | some l => (some l, some l.alpha3, some l)
    | none => (none, remoteHomeland, uiHomeland)

/-- Per-code push loop of `syncWithPocketbase` (index.tsx lines 123-136):
for every local selection absent from the fetched remote snapshot, call
`saveCountrySelection`; a failing call is caught and the loop continues.
Returns the remote record list after the loop and the codes for which a
call was issued, in order. -/
def syncLocalToRemote (pocketbaseSelections : List SelectedCountry) :
    List SelectedCountry → List String → List String × List String
  | [], remoteSels => (remoteSels, [])
  | lc :: rest, remoteSels =>
    if pocketbaseSelections.any (fun pc => pc.alpha3 = lc.alpha3) then
      syncLocalToRemote pocketbaseSelections rest remoteSels
    else
      match svcSaveCountrySelection true remoteSels
          { name := lc.name, alpha3 := lc.alpha3 } with
      | Except.ok remoteSels' =>
        let res := syncLocalToRemote pocketbaseSelections rest remoteSels'
        (res.1, lc.alpha3 :: res.2)
      | Except.error _ =>
        let res := syncLocalToRemote pocketbaseSelections rest remoteSels
        (res.1, lc.alpha3 :: res.2)

/-- The reconciliation effect `syncWithPocketbase` (index.tsx lines 63-150).
When authenticated (and initialized): fetch the remote selections and
homeland, merge the selection sets (remote wins on a shared code), run the
homeland rule, publish the merged set to the component state, and push
local-only selections up to PocketBase.  When not authenticated: clear the
in-memory homeland and the locally stored homeland.  `fetch` is the
outcome of the underlying record-list request inside
`getUserCountrySelections`. -/
def syncWithPocketbase (catalog : String → Option String) (authed : Bool)
    (fetch : Except Unit (List String)) (e : Env) : SyncResult :=
  if authed then
    match svcGetUserCountrySelections catalog true fetch with
    | Except.error _ => { env := e, merged := [], saveCalls := [] }
    | Except.ok pocketbaseCountries =>
      match svcGetHomeland catalog true e.remoteHomeland with
      | Except.error _ => { env := e, merged := [], saveCalls := [] }
      | Except.ok pocketbaseHomeland =>
        let pocketbaseSelections := pocketbaseCountries.map toSelected
        let merged := mergedSelections e.localSels pocketbaseSelections
        let hs := syncHomeland e.localHomeland pocketbaseHomeland
          e.remoteHomeland e.uiHomeland
        let push := syncLocalToRemote pocketbaseSelections e.localSels
          e.remoteSels
        { env := { e with
            localHomeland := hs.1,
            remoteHomeland := hs.2.1,
            uiHomeland := hs.2.2,
            uiSelected := merged.map (fun c => c.alpha3),
            remoteSels := push.1 },
          merged := merged,
          saveCalls := push.2 }
  else
    { env := { e with uiHomeland := none, localHomeland := none },
      merged := [], saveCalls := [] }

/-!
Mutation handlers of the route component (`src/routes/index.tsx`).  Each
handler returns the updated state together with an ordered trace of the
store writes it performed or attempted, in execution order.  A remote
mirror write whose success flag is `false` models a rejected PocketBase
call: the write is attempted (it appears in the trace) but the remote
state is unchanged and the error is caught and logged.
-/

/-- One store write, as recorded in a handler's trace. -/
inductive Effect where
  | localAdd (a3 : String)
  | localRemove (a3 : String)
  | localClear
  | localSetHomeland (a3 : String)
  | localClearHomeland
  | remoteSave (a3 : String)
  | remoteRemove (a3 : String)
  | remoteClear
  | remoteSetHomeland (a3 : String)
  | remoteClearHomeland
deriving DecidableEq, Repr

/-- `countryStorage.addCountry`: IndexedDB `put` keyed by `id`, with
`id := alpha3` (upsert: overwrite in place, else append). -/
def addCountry : List SelectedCountry → Country → List SelectedCountry
  | [], c => [toSelected c]
  | rec :: rest, c =>
      if rec.id = c.alpha3 then toSelected c :: rest
      else rec :: addCountry rest c

/-- `countryStorage.removeCountry`: IndexedDB `delete` by key. -/
def removeCountry (db : List SelectedCountry) (a3 : String) :
    List SelectedCountry :=
  db.filter (fun rec => rec.id ≠ a3)

/-- `handleCountrySelect` (index.tsx lines 160-194): reject when the code
equals the current homeland; otherwise write the local store, update the
component state, and mirror to PocketBase when authenticated (failure
caught). -/
def handleCountrySelect (authed remoteOk : Bool) (e : Env) (c : Country) :
    Env × List Effect :=
  if (match e.uiHomeland with
      | some h => decide (h.alpha3 = c.alpha3)
      | none => false) then
    (e, [])
  else
    let e1 := { e with
      localSels := addCountry e.localSels c,
      uiSelected := e.uiSelected ++ [c.alpha3] }
    if authed then
      match svcSaveCountrySelection true e.remoteSels c with
      | Except.ok rs =>
        (if remoteOk then { e1 with remoteSels := rs } else e1,
         [Effect.localAdd c.alpha3, Effect.remoteSave c.alpha3])
      | Except.error _ =>
        (e1, [Effect.localAdd c.alpha3, Effect.remoteSave c.alpha3])
    else
      (e1, [Effect.localAdd c.alpha3])

/-- `handleCountryDeselect` (index.tsx lines 196-221): remove from the
local store, update the component state, and mirror the removal to
PocketBase when authenticated (failure caught). -/
def handleCountryDeselect (authed remoteOk : Bool) (e : Env) (a3 : String) :
    Env × List Effect :=
  let e1 := { e with
    localSels := removeCountry e.localSels a3,
    uiSelected := e.uiSelected.filter (fun x => x ≠ a3) }
  if authed then
    match svcRemoveCountrySelection true e.remoteSels a3 with
    | Except.ok rs =>
      (if remoteOk then { e1 with remoteSels := rs } else e1,
       [Effect.localRemove a3, Effect.remoteRemove a3])
    | Except.error _ =>
      (e1, [Effect.localRemove a3, Effect.remoteRemove a3])
  else
    (e1, [Effect.localRemove a3])

/-- `handleClearAll` (index.tsx lines 223-245): clear the local store and
the component state, then clear PocketBase when authenticated (failure
caught). -/
def handleClearAll (authed remoteOk : Bool) (e : Env) : Env × List Effect :=
  let e1 := { e with localSels := [], uiSelected := [] }
  if authed then
    match svcClearAllCountrySelections true e.remoteSels with
    | Except.ok rs =>
      (if remoteOk then { e1 with remoteSels := rs } else e1,
       [Effect.localClear, Effect.remoteClear])
    | Except.error _ =>
      (e1, [Effect.localClear, Effect.remoteClear])
  else
    (e1, [Effect.localClear])

/-- `handleHomelandSelect` (index.tsx lines 247-287): set the homeland in
component state and the local settings store, mirror it to PocketBase when
authenticated, then — if the code is currently a visited selection — evict
it from the local store, the component state and (when authenticated)
PocketBase.  Each remote failure is caught. -/
def handleHomelandSelect (authed remoteOk1 remoteOk2 : Bool) (e : Env)
    (c : Country) : Env × List Effect :=
  let e1 := { e with uiHomeland := some c, localHomeland := some c }
  let step2 : Env × List Effect :=
    if authed then
      match svcSetHomeland true c with
      | Except.ok h =>
        (if remoteOk1 then { e1 with remoteHomeland := h } else e1,
         [Effect.remoteSetHomeland c.alpha3])
      | Except.error _ => (e1, [Effect.remoteSetHomeland c.alpha3])
    else (e1, [])
  let e2 := step2.1
  if e.uiSelected.contains c.alpha3 then
    let e3 := { e2 with
      localSels := removeCountry e2.localSels c.alpha3,
      uiSelected := e2.uiSelected.filter (fun x => x ≠ c.alpha3) }
    let step4 : Env × List Effect :=
      if authed then
        match svcRemoveCountrySelection true e3.remoteSels c.alpha3 with
        | Except.ok rs =>
          (if remoteOk2 then { e3 with remoteSels := rs } else e3,
           [Effect.remoteRemove c.alpha3])
        | Except.error _ => (e3, [Effect.remoteRemove c.alpha3])
      else (e3, [])
    (step4.1,
     Effect.localSetHomeland c.alpha3 :: step2.2
       ++ Effect.localRemove c.alpha3 :: step4.2)
  else
    (e2, Effect.localSetHomeland c.alpha3 :: step2.2)

/-- `handleHomelandClear` (index.tsx lines 289-308): clear the local
settings store and the component state, then clear the PocketBase homeland
when authenticated (failure caught). -/
def handleHomelandClear (authed remoteOk : Bool) (e : Env) :
    Env × List Effect :=
  let e1 := { e with localHomeland := none, uiHomeland := none }
  if authed then
    match svcClearHomeland true with
    | Except.ok h =>
      (if remoteOk then { e1 with remoteHomeland := h } else e1,
       [Effect.localClearHomeland, Effect.remoteClearHomeland])
    | Except.error _ =>
      (e1, [Effect.localClearHomeland, Effect.remoteClearHomeland])
  else
    (e1, [Effect.localClearHomeland])

/-!
Concrete data for the scenario runs: a four-country catalog and the
environments of the spec's worked examples.
-/

/-- Four-entry country catalog used by the concrete scenario runs. -/
def demoCatalog : String → Option String := fun a3 =>
  if a3 = "FRA" then some "France"
  else if a3 = "DEU" then some "Germany"
  else if a3 = "POL" then some "Poland"
  else if a3 = "ITA" then some "Italy"
  else none

/-- Scenario state: local store holds `FRA`, remote store holds `DEU`. -/
def envFraDeu : Env :=
  { remoteSels := ["DEU"], remoteHomeland := none,
    localSels := [{ id := "FRA", name := "France", alpha3 := "FRA" }],
    localHomeland := none, uiSelected := ["FRA"], uiHomeland := none }

/-- Scenario state just before a failing remote fetch: the UI shows the
result of an earlier successful reconciliation (`FRA` and `DEU`), the
local store holds only `FRA`, the remote store holds `DEU`. -/
def envFetchFail : Env :=
  { remoteSels := ["DEU"], remoteHomeland := none,
    localSels := [{ id := "FRA", name := "France", alpha3 := "FRA" }],
    localHomeland := none, uiSelected := ["FRA", "DEU"], uiHomeland := none }

/-- Scenario state at sign-out: a locally persisted homeland `POL`. -/
def envSignOut : Env :=
  { remoteSels := [], remoteHomeland := none,
    localSels := [{ id := "FRA", name := "France", alpha3 := "FRA" }],
    localHomeland := some { name := "Poland", alpha3 := "POL" },
    uiSelected := ["FRA"], uiHomeland := some { name := "Poland", alpha3 := "POL" } }

/-- Truth of an `Except`-returning remote call having failed. -/
def svcFails {α : Type} (r : Except String α) : Bool :=
  match r with
  | Except.error _ => true
  | Except.ok _ => false

theorem lookupKey_mapSet (m : List (String × SelectedCountry)) (k q : String)
    (v : SelectedCountry) :
    lookupKey (mapSet m k v) q = if k = q then some v else lookupKey m q := by
  induction m with
  | nil =>
    by_cases h : k = q <;> simp [mapSet, lookupKey, h]
  | cons p rest ih =>
    obtain ⟨a, b⟩ := p
    by_cases hak : a = k
    · subst hak
      by_cases haq : a = q <;> simp [mapSet, lookupKey, haq]
    · by_cases haq : a = q
      · subst haq
        have hka : ¬ k = a := fun h => hak h.symm
        simp [mapSet, lookupKey, hak, hka]
      · simp [mapSet, lookupKey, hak, haq, ih]

theorem lookupKey_foldl_mapSet (cs : List SelectedCountry)
    (m : List (String × SelectedCountry)) (q : String) :
    lookupKey (cs.foldl (fun m c => mapSet m c.alpha3 c) m) q =
      optOr (lastFind cs q) (lookupKey m q) := by
  induction cs generalizing m with
  | nil => simp [lastFind, optOr]
  | cons c rest ih =>
    simp only [List.foldl_cons, lastFind]
    rw [ih, lookupKey_mapSet]
    cases hrest : lastFind rest q with
    | some x => simp [optOr]
    | none =>
      by_cases h : c.alpha3 = q <;> simp [optOr, h]

theorem lookupKey_buildCountryMap (l r : List SelectedCountry) (q : String) :
    lookupKey (buildCountryMap l r) q = optOr (lastFind r q) (lastFind l q) := by
  unfold buildCountryMap
  rw [lookupKey_foldl_mapSet, lookupKey_foldl_mapSet]
  cases lastFind r q <;> cases lastFind l q <;> simp [optOr, lookupKey]

theorem lastFind_isSome_iff (cs : List SelectedCountry) (k : String) :
    (lastFind cs k).isSome = true ↔ ∃ c ∈ cs, c.alpha3 = k := by
  induction cs with
  | nil => simp [lastFind]
  | cons c rest ih =>
    cases hrest : lastFind rest k with
    | some x =>
      obtain ⟨d, hd, hdk⟩ := ih.mp (by simp [hrest])
      simp only [lastFind, hrest, optOr, Option.isSome_some, true_iff]
      exact ⟨d, List.mem_cons_of_mem _ hd, hdk⟩
    | none =>
      simp only [lastFind, hrest, optOr]
      by_cases h : c.alpha3 = k
      · simp [h]
      · simp only [h, if_false]
        constructor
        · intro hcontr; simp at hcontr
        · rintro ⟨d, hd, hdk⟩
          rcases List.mem_cons.mp hd with rfl | hd'
          · exact absurd hdk h
          · have := ih.mpr ⟨d, hd', hdk⟩
            rw [hrest] at this
            simp at this

theorem lastFind_eq_none (cs : List SelectedCountry) (k : String)
    (h : ∀ c ∈ cs, c.alpha3 ≠ k) : lastFind cs k = none := by
  cases hv : lastFind cs k with
  | none => rfl
  | some x =>
    have : ∃ c ∈ cs, c.alpha3 = k := (lastFind_isSome_iff cs k).mp (by simp [hv])
    obtain ⟨c, hc, hck⟩ := this
    exact absurd hck (h c hc)

theorem lastFind_eq_of_mem (cs : List SelectedCountry) (c : SelectedCountry)
    (k : String) (hnd : (cs.map (fun x => x.alpha3)).Nodup)
    (hc : c ∈ cs) (hck : c.alpha3 = k) : lastFind cs k = some c := by
  induction cs with
  | nil => cases hc
  | cons d rest ih =>
    simp only [List.map_cons, List.nodup_cons] at hnd
    rcases List.mem_cons.mp hc with rfl | hmem
    · have hnone : lastFind rest k = none := by
        apply lastFind_eq_none
        intro x hx hxk
        exact hnd.1 (List.mem_map.mpr ⟨x, hx, by rw [hxk, hck]⟩)
      simp [lastFind, hnone, optOr, hck]
    · have := ih hnd.2 hmem
      simp [lastFind, this, optOr]

theorem mapSet_good (m : List (String × SelectedCountry)) (k : String)
    (v : SelectedCountry) (hm : ∀ p ∈ m, (p : String × SelectedCountry).2.alpha3 = p.1)
    (hv : v.alpha3 = k) :
    ∀ p ∈ mapSet m k v, (p : String × SelectedCountry).2.alpha3 = p.1 := by
  induction m with
  | nil => simp [mapSet, hv]
  | cons q rest ih =>
    obtain ⟨a, b⟩ := q
    by_cases hak : a = k
    · simp only [mapSet, hak, if_true]
      intro p hp
      rcases List.mem_cons.mp hp with rfl | hp'
      · exact hv
      · exact hm p (List.mem_cons_of_mem _ hp')
    · simp only [mapSet, hak, if_false]
      intro p hp
      rcases List.mem_cons.mp hp with rfl | hp'
      · exact hm (a, b) (List.mem_cons_self _ _)
      · exact ih (fun q hq => hm q (List.mem_cons_of_mem _ hq)) p hp'

theorem foldl_mapSet_good (cs : List SelectedCountry)
    (m : List (String × SelectedCountry))
    (hm : ∀ p ∈ m, (p : String × SelectedCountry).2.alpha3 = p.1) :
    ∀ p ∈ cs.foldl (fun m c => mapSet m c.alpha3 c) m,
      (p : String × SelectedCountry).2.alpha3 = p.1 := by
  induction cs generalizing m with
  | nil => exact hm
  | cons c rest ih =>
    exact ih (mapSet m c.alpha3 c) (mapSet_good m c.alpha3 c hm rfl)

theorem buildCountryMap_good (l r : List SelectedCountry) :
    ∀ p ∈ buildCountryMap l r, (p : String × SelectedCountry).2.alpha3 = p.1 := by
  unfold buildCountryMap
  exact foldl_mapSet_good r _ (foldl_mapSet_good l [] (by simp))

theorem findByCode_values (m : List (String × SelectedCountry)) (k : String)
    (hg : ∀ p ∈ m, (p : String × SelectedCountry).2.alpha3 = p.1) :
    findByCode (m.map (fun p => p.2)) k = lookupKey m k := by
  induction m with
  | nil => simp [findByCode, lookupKey]
  | cons q rest ih =>
    obtain ⟨a, b⟩ := q
    have hba : b.alpha3 = a := hg (a, b) (List.mem_cons_self _ _)
    by_cases hak : a = k
    · have hbk : b.alpha3 = k := by rw [hba, hak]
      simp [findByCode, lookupKey, hak, hbk]
    · have hbk : ¬ b.alpha3 = k := by rw [hba]; exact hak
      have := ih (fun q hq => hg q (List.mem_cons_of_mem _ hq))
      simp [findByCode, lookupKey, hak, hbk] at this ⊢
      exact this

/-- C1: the reconciliation merge of `syncWithPocketbase` (index.tsx lines
83-96), applied to a local selection set and a remote selection set each
keyed by alpha-3 code, yields a merged set whose key set is exactly the
union of the two key sets; for a code present on both sides the merged
record is the remote record (so its display name is the remote one), and a
code present only locally keeps the local record. -/
theorem C1_merge_union_remote_precedence (l r : List SelectedCountry)
    (hl : (l.map (fun c => c.alpha3)).Nodup)
    (hr : (r.map (fun c => c.alpha3)).Nodup) :
    (∀ k, (∃ c ∈ mergedSelections l r, c.alpha3 = k) ↔
        ((∃ c ∈ l, c.alpha3 = k) ∨ (∃ c ∈ r, c.alpha3 = k)))
    ∧ (∀ k cr, cr ∈ r → cr.alpha3 = k →
        findByCode (mergedSelections l r) k = some cr)
    ∧ (∀ k cl, cl ∈ l → cl.alpha3 = k → (∀ c ∈ r, c.alpha3 ≠ k) →
        findByCode (mergedSelections l r) k = some cl) := by
  have hfind : ∀ k, findByCode (mergedSelections l r) k =
      lookupKey (buildCountryMap l r) k :=
    fun k => findByCode_values _ k (buildCountryMap_good l r)
  refine ⟨?_, ?_, ?_⟩
  · intro k
    have h1 : (∃ c ∈ mergedSelections l r, c.alpha3 = k) ↔
        (findByCode (mergedSelections l r) k).isSome = true := by
      unfold findByCode
      rw [List.find?_isSome]
      constructor
      · rintro ⟨c, hc, hck⟩; exact ⟨c, hc, by simp [hck]⟩
      · rintro ⟨c, hc, hck⟩; exact ⟨c, hc, by simpa using hck⟩
    rw [h1, hfind, lookupKey_buildCountryMap]
    cases hrf : lastFind r k with
    | some x =>
      have hx : ∃ c ∈ r, c.alpha3 = k :=
        (lastFind_isSome_iff r k).mp (by simp [hrf])
      simp only [optOr, Option.isSome_some, true_iff]
      exact Or.inr hx
    | none =>
      have hnr : ¬ ∃ c ∈ r, c.alpha3 = k := by
        intro hcontr
        have := (lastFind_isSome_iff r k).mpr hcontr
        rw [hrf] at this
        simp at this
      simp only [optOr]
      rw [lastFind_isSome_iff]
      constructor
      · exact Or.inl
      · rintro (h | h)
        · exact h
        · exact absurd h hnr
  · intro k cr hcr hck
    rw [hfind, lookupKey_buildCountryMap, lastFind_eq_of_mem r cr k hr hcr hck]
    rfl
  · intro k cl hcl hck hnone
    rw [hfind, lookupKey_buildCountryMap, lastFind_eq_none r k hnone,
      lastFind_eq_of_mem l cl k hl hcl hck]
    rfl

/-- Witness for C1 at a concrete input: local `FRA` (stale name) and remote
`FRA`/`DEU`; the merged record for `FRA` is the remote one. -/
theorem C1_merge_union_remote_precedence_witness :
    findByCode (mergedSelections
        [{ id := "FRA", name := "Frankreich", alpha3 := "FRA" }]
        [{ id := "FRA", name := "France", alpha3 := "FRA" },
         { id := "DEU", name := "Germany", alpha3 := "DEU" }]) "FRA"
      = some { id := "FRA", name := "France", alpha3 := "FRA" } :=
  (C1_merge_union_remote_precedence
      [{ id := "FRA", name := "Frankreich", alpha3 := "FRA" }]
      [{ id := "FRA", name := "France", alpha3 := "FRA" },
       { id := "DEU", name := "Germany", alpha3 := "DEU" }]
      (by decide) (by decide)).2.1 "FRA"
    { id := "FRA", name := "France", alpha3 := "FRA" } (by decide) rfl

/-- C8 counterexample: invoked without an authenticated session, the read
operations of the remote store do not raise — `getUserCountrySelections`
resolves with the default `[]` (and `getHomeland` / `getMapShareStatus`
with `null` / `false`) even when records exist server-side. -/
theorem C8_auth_required_counterexample :
    svcGetUserCountrySelections demoCatalog false (Except.ok ["DEU"])
        = Except.ok []
    ∧ svcFails (svcGetUserCountrySelections demoCatalog false
        (Except.ok ["DEU"])) = false
    ∧ svcGetHomeland demoCatalog false (some "ITA") = Except.ok none
    ∧ svcGetMapShareStatus false true = Except.ok false := by
  refine ⟨rfl, rfl, rfl, rfl⟩

/-- C8 amended: every remote-store WRITE operation invoked without an
authenticated session fails fast with an authentication-required error,
while the read operations (`getUserCountrySelections`, `getHomeland`,
`getMapShareStatus`) return neutral defaults (`[]`, `null`, `false`)
without raising. -/
theorem C8_auth_required_amended (catalog : String → Option String)
    (rs : List String) (c : Country) (a3 : String) (sh : Bool)
    (h : Option String) (fetch : Except Unit (List String)) :
    svcFails (svcSaveCountrySelection false rs c) = true
    ∧ svcFails (svcRemoveCountrySelection false rs a3) = true
    ∧ svcFails (svcClearAllCountrySelections false rs) = true
    ∧ svcFails (svcSetHomeland false c) = true
    ∧ svcFails (svcClearHomeland false) = true
    ∧ svcFails (svcToggleMapSharing false sh) = true
    ∧ svcGetUserCountrySelections catalog false fetch = Except.ok []
    ∧ svcGetHomeland catalog false h = Except.ok none
    ∧ svcGetMapShareStatus false sh = Except.ok false := by
  refine ⟨rfl, rfl, rfl, rfl, rfl, rfl, rfl, rfl, rfl⟩

/-- C10: the remote selection list operations (`getUserCountrySelections`
and the country list of `getSharedProfile`) silently drop every stored
record whose code is not resolvable in the catalog; every returned country
resolves in the catalog and carries the catalog display name, and the
returned codes are exactly the resolvable stored codes in order. -/
theorem C10_unknown_codes_filtered (catalog : String → Option String)
    (recs : List String) :
    svcGetUserCountrySelections catalog true (Except.ok recs)
        = Except.ok (getSharedProfileCountries catalog recs)
    ∧ (∀ c ∈ getSharedProfileCountries catalog recs,
        catalog c.alpha3 = some c.name
        ∧ alpha3ToCountry catalog c.alpha3 = some c)
    ∧ (getSharedProfileCountries catalog recs).map (fun c => c.alpha3)
        = recs.filter (fun a3 => (catalog a3).isSome) := by
  refine ⟨rfl, ?_, ?_⟩
  · intro c hc
    obtain ⟨a3, ha3, hres⟩ :=
      List.mem_filterMap.mp (by simpa [getSharedProfileCountries] using hc)
    cases hcat : catalog a3 with
    | none =>
      rw [alpha3ToCountry, hcat] at hres
      simp at hres
    | some n =>
      rw [alpha3ToCountry, hcat] at hres
      simp only [Option.some_inj] at hres
      subst hres
      exact ⟨hcat, by simp [alpha3ToCountry, hcat]⟩
  · induction recs with
    | nil => rfl
    | cons a3 rest ih =>
      cases hcat : catalog a3 with
      | none =>
        simp [getSharedProfileCountries, List.filterMap_cons,
          alpha3ToCountry, hcat, List.filter_cons] at ih ⊢
        exact ih
      | some n =>
        simp [getSharedProfileCountries, List.filterMap_cons,
          alpha3ToCountry, hcat, List.filter_cons] at ih ⊢
        exact ih

/-- C6 counterexample: the sign-out branch of `syncWithPocketbase`
(index.tsx lines 142-146) calls `userSettingsStorage.clearHomeland()`, so
the locally persisted homeland (`POL`) is NOT left unchanged. -/
theorem C6_signout_counterexample :
    (syncWithPocketbase demoCatalog false (Except.ok []) envSignOut).env.localHomeland
      ≠ envSignOut.localHomeland := by
  decide

/-- C6 amended: on sign-out the in-memory homeland is cleared AND the
locally persisted homeland is cleared as well; the Local Selection Store,
the in-memory selection set and the remote state are left unchanged. -/
theorem C6_signout_amended (catalog : String → Option String)
    (fetch : Except Unit (List String)) (e : Env) :
    (syncWithPocketbase catalog false fetch e).env.uiHomeland = none
    ∧ (syncWithPocketbase catalog false fetch e).env.localHomeland = none
    ∧ (syncWithPocketbase catalog false fetch e).env.localSels = e.localSels
    ∧ (syncWithPocketbase catalog false fetch e).env.uiSelected = e.uiSelected
    ∧ (syncWithPocketbase catalog false fetch e).env.remoteSels = e.remoteSels
    ∧ (syncWithPocketbase catalog false fetch e).env.remoteHomeland
        = e.remoteHomeland := by
  refine ⟨rfl, rfl, rfl, rfl, rfl, rfl⟩

/-- C5 counterexample: with Local = {FRA} and Remote = {DEU}, reconciliation
puts `DEU` in the merged set but performs NO Local Store upsert — the local
store still holds only `FRA` afterwards. -/
theorem C5_local_upsert_counterexample :
    (∃ c ∈ (syncWithPocketbase demoCatalog true
        (Except.ok envFraDeu.remoteSels) envFraDeu).merged, c.alpha3 = "DEU")
    ∧ (syncWithPocketbase demoCatalog true
        (Except.ok envFraDeu.remoteSels) envFraDeu).env.localSels
        = envFraDeu.localSels
    ∧ ¬ ∃ rec ∈ (syncWithPocketbase demoCatalog true
        (Except.ok envFraDeu.remoteSels) envFraDeu).env.localSels,
        rec.alpha3 = "DEU" := by
  decide

/-- C5 amended: reconciliation never writes the Local Selection Store —
the merged map only becomes the in-memory/UI selection set; in the
Local = {FRA}, Remote = {DEU} scenario the Remote Store does receive a
`saveSelection` call for `FRA` and the merged set is {FRA, DEU}, but no
Local Store upsert for `DEU` happens. -/
theorem C5_merged_persistence_amended (catalog : String → Option String)
    (fetch : Except Unit (List String)) (e : Env) :
    (syncWithPocketbase catalog true fetch e).env.localSels = e.localSels
    ∧ (syncWithPocketbase demoCatalog true
        (Except.ok envFraDeu.remoteSels) envFraDeu).saveCalls = ["FRA"]
    ∧ (syncWithPocketbase demoCatalog true
        (Except.ok envFraDeu.remoteSels) envFraDeu).merged.map
          (fun c => c.alpha3) = ["FRA", "DEU"]
    ∧ (syncWithPocketbase demoCatalog true
        (Except.ok envFraDeu.remoteSels) envFraDeu).env.uiSelected
        = ["FRA", "DEU"] := by
  refine ⟨?_, by decide, by decide, by decide⟩
  cases fetch with
  | ok recs => rfl
  | error u => rfl

theorem syncLocalToRemote_nil_ps (locals : List SelectedCountry)
    (rs : List String) :
    (syncLocalToRemote [] locals rs).2 = locals.map (fun c => c.alpha3) := by
  induction locals generalizing rs with
  | nil => rfl
  | cons lc rest ih =>
    simp [syncLocalToRemote, svcSaveCountrySelection, ih]

/-- C7 counterexample: when the remote record fetch at the start of
reconciliation fails, the pass is NOT aborted — a `saveCountrySelection`
call is issued for `FRA` and the UI selection set changes (it loses
`DEU`). -/
theorem C7_fetch_failure_counterexample :
    (syncWithPocketbase demoCatalog true (Except.error ()) envFetchFail).saveCalls
        ≠ []
    ∧ (syncWithPocketbase demoCatalog true (Except.error ()) envFetchFail).env.uiSelected
        ≠ envFetchFail.uiSelected := by
  decide

/-- C7 amended: a failing remote fetch is caught inside
`getUserCountrySelections` and becomes an empty list, so reconciliation
proceeds against an empty remote view instead of aborting: the Local Store
contents are unchanged, the merged set is the local-only merge, the UI
selection set is reset to it, and a remote `saveCountrySelection` call is
attempted for every local record. -/
theorem C7_fetch_failure_amended (catalog : String → Option String) (e : Env) :
    (syncWithPocketbase catalog true (Except.error ()) e).env.localSels
        = e.localSels
    ∧ (syncWithPocketbase catalog true (Except.error ()) e).merged
        = mergedSelections e.localSels []
    ∧ (syncWithPocketbase catalog true (Except.error ()) e).saveCalls
        = e.localSels.map (fun c => c.alpha3)
    ∧ (syncWithPocketbase catalog true (Except.error ()) e).env.uiSelected
        = (mergedSelections e.localSels []).map (fun c => c.alpha3) := by
  refine ⟨rfl, rfl, ?_, rfl⟩
  exact syncLocalToRemote_nil_ps e.localSels e.remoteSels

/-- C3: homeland reconciliation on sign-in — if the remote homeland is set
(to a catalog-resolvable code) and differs from the local homeland, the
local homeland is overwritten with the remote value (remote unchanged);
otherwise, if the local homeland is set and the remote homeland is unset,
the local value is written to the remote profile (local unchanged). -/
theorem C3_homeland_reconciliation (catalog : String → Option String)
    (e : Env) :
    (∀ ra rn, e.remoteHomeland = some ra → catalog ra = some rn →
      (∀ lh, e.localHomeland = some lh → lh.alpha3 ≠ ra) →
      (syncWithPocketbase catalog true (Except.ok e.remoteSels) e).env.localHomeland
          = some { name := rn, alpha3 := ra }
      ∧ (syncWithPocketbase catalog true (Except.ok e.remoteSels) e).env.remoteHomeland
          = e.remoteHomeland)
    ∧ (∀ lh, e.remoteHomeland = none → e.localHomeland = some lh →
      (syncWithPocketbase catalog true (Except.ok e.remoteSels) e).env.remoteHomeland
          = some lh.alpha3
      ∧ (syncWithPocketbase catalog true (Except.ok e.remoteSels) e).env.localHomeland
          = some lh) := by
  constructor
  · intro ra rn hra hcat hne
    cases hlh : e.localHomeland with
    | none =>
      constructor <;>
        simp [syncWithPocketbase, svcGetUserCountrySelections, svcGetHomeland,
          syncHomeland, alpha3ToCountry, hra, hcat, hlh]
    | some lh =>
      have hdiff : lh.alpha3 ≠ ra := hne lh hlh
      constructor <;>
        simp [syncWithPocketbase, svcGetUserCountrySelections, svcGetHomeland,
          syncHomeland, alpha3ToCountry, hra, hcat, hlh, hdiff]
  · intro lh hra hlh
    constructor <;>
      simp [syncWithPocketbase, svcGetUserCountrySelections, svcGetHomeland,
        syncHomeland, alpha3ToCountry, hra, hlh]

/-- Witness for C3 at the spec's two worked examples: remote `ITA` with no
local homeland overwrites local; local `POL` with no remote homeland is
pushed to the remote profile. -/
theorem C3_homeland_reconciliation_witness :
    (syncWithPocketbase demoCatalog true (Except.ok [])
        { remoteSels := [], remoteHomeland := some "ITA", localSels := [],
          localHomeland := none, uiSelected := [],
          uiHomeland := none }).env.localHomeland
        = some { name := "Italy", alpha3 := "ITA" }
    ∧ (syncWithPocketbase demoCatalog true (Except.ok [])
        { remoteSels := [], remoteHomeland := none, localSels := [],
          localHomeland := some { name := "Poland", alpha3 := "POL" },
          uiSelected := [], uiHomeland := none }).env.remoteHomeland
        = some "POL" := by
  constructor
  · exact ((C3_homeland_reconciliation demoCatalog
      { remoteSels := [], remoteHomeland := some "ITA", localSels := [],
        localHomeland := none, uiSelected := [], uiHomeland := none }).1
      "ITA" "Italy" rfl rfl (fun lh h => nomatch h)).1
  · exact ((C3_homeland_reconciliation demoCatalog
      { remoteSels := [], remoteHomeland := none, localSels := [],
        localHomeland := some { name := "Poland", alpha3 := "POL" },
        uiSelected := [], uiHomeland := none }).2
      { name := "Poland", alpha3 := "POL" } rfl rfl).1

theorem mem_addCountry (db : List SelectedCountry) (c : Country) :
    toSelected c ∈ addCountry db c := by
  induction db with
  | nil => simp [addCountry]
  | cons rec rest ih =>
    by_cases h : rec.id = c.alpha3 <;> simp [addCountry, h, ih]

theorem handleHomelandSelect_state (authed r1 r2 : Bool) (e : Env)
    (c : Country) (hsel : e.uiSelected.contains c.alpha3 = true) :
    (handleHomelandSelect authed r1 r2 e c).1.localSels
        = removeCountry e.localSels c.alpha3
    ∧ (handleHomelandSelect authed r1 r2 e c).1.uiSelected
        = e.uiSelected.filter (fun x => x ≠ c.alpha3)
    ∧ (handleHomelandSelect authed r1 r2 e c).1.uiHomeland = some c
    ∧ (handleHomelandSelect authed r1 r2 e c).1.localHomeland = some c
    ∧ (handleHomelandSelect authed r1 r2 e c).1.remoteSels
        = (if authed && r2 then e.remoteSels.erase c.alpha3
           else e.remoteSels) := by
  have hmem : c.alpha3 ∈ e.uiSelected := by simpa using hsel
  cases authed <;> cases r1 <;> cases r2 <;>
    simp [handleHomelandSelect, svcSetHomeland, svcRemoveCountrySelection,
      hsel, hmem]

/-- C4: homeland and visited-selection are mutually exclusive — selecting a
code equal to the current homeland leaves everything unchanged (rejected
before any write, empty trace), and setting a homeland equal to a
currently-selected code removes that code from the local store, the UI
selection set and (if authenticated and the remote delete succeeds) the
remote store, while the homeland is set as part of the same operation. -/
theorem C4_mutual_exclusion (authed remoteOk remoteOk1 remoteOk2 : Bool)
    (e : Env) (c : Country) :
    (∀ h, e.uiHomeland = some h → h.alpha3 = c.alpha3 →
      handleCountrySelect authed remoteOk e c = (e, []))
    ∧ (e.uiSelected.contains c.alpha3 = true →
      (∀ rec ∈ e.localSels, rec.id = rec.alpha3) →
      e.remoteSels.Nodup →
      (∀ rec ∈ (handleHomelandSelect authed remoteOk1 remoteOk2 e c).1.localSels,
          rec.alpha3 ≠ c.alpha3)
      ∧ c.alpha3 ∉ (handleHomelandSelect authed remoteOk1 remoteOk2 e c).1.uiSelected
      ∧ (authed = true → remoteOk2 = true →
          c.alpha3 ∉ (handleHomelandSelect authed remoteOk1 remoteOk2 e c).1.remoteSels)
      ∧ (handleHomelandSelect authed remoteOk1 remoteOk2 e c).1.uiHomeland = some c
      ∧ (handleHomelandSelect authed remoteOk1 remoteOk2 e c).1.localHomeland
          = some c) := by
  constructor
  · intro h hh heq
    simp [handleCountrySelect, hh, heq]
  · intro hsel hid hnd
    obtain ⟨hloc, hui, huih, hlh, hrem⟩ :=
      handleHomelandSelect_state authed remoteOk1 remoteOk2 e c hsel
    refine ⟨?_, ?_, ?_, huih, hlh⟩
    · intro rec hrec
      rw [hloc] at hrec
      have := List.mem_filter.mp hrec
      have hne : rec.id ≠ c.alpha3 := by simpa using this.2
      rw [← hid rec this.1]
      exact hne
    · rw [hui]
      intro hmem
      have := List.mem_filter.mp hmem
      simp at this
    · intro ha hr2
      subst ha; subst hr2
      rw [hrem]
      simp only [Bool.and_self, if_true]
      intro hmem
      exact absurd ((List.Nodup.mem_erase_iff hnd).mp hmem).1 (by simp)

/-- Witness for C4 at concrete inputs: with homeland `POL`, selecting `POL`
is a no-op; with `FRA` currently visited, setting homeland `FRA` evicts
`FRA` from the UI selection set. -/
theorem C4_mutual_exclusion_witness :
    handleCountrySelect true true envSignOut
        { name := "Poland", alpha3 := "POL" } = (envSignOut, [])
    ∧ "FRA" ∉ (handleHomelandSelect true true true envSignOut
        { name := "France", alpha3 := "FRA" }).1.uiSelected := by
  constructor
  · exact (C4_mutual_exclusion true true true true envSignOut
      { name := "Poland", alpha3 := "POL" }).1
      { name := "Poland", alpha3 := "POL" } rfl rfl
  · exact ((C4_mutual_exclusion true true true true envSignOut
      { name := "France", alpha3 := "FRA" }).2 rfl
      (by decide) (by decide)).2.1

/-- C9: in every mutation handler the Local Store write precedes the
Remote Store mirror attempt in the handler's write trace (shown as exact
trace equations for the authenticated path), and when the remote write
throws during the mirrored save the Local Store still contains the
selection afterwards and the optimistic local state is not rolled back. -/
theorem C9_local_write_before_remote (rk rk1 rk2 : Bool) (e : Env)
    (c : Country) (a3 : String)
    (hnc : ∀ h, e.uiHomeland = some h → h.alpha3 ≠ c.alpha3) :
    (handleCountrySelect true rk e c).2
        = [Effect.localAdd c.alpha3, Effect.remoteSave c.alpha3]
    ∧ (∃ rec ∈ (handleCountrySelect true false e c).1.localSels,
        rec.alpha3 = c.alpha3)
    ∧ (handleCountrySelect true false e c).1.remoteSels = e.remoteSels
    ∧ (handleCountrySelect true false e c).1.uiSelected
        = e.uiSelected ++ [c.alpha3]
    ∧ (handleCountryDeselect true rk e a3).2
        = [Effect.localRemove a3, Effect.remoteRemove a3]
    ∧ (handleClearAll true rk e).2 = [Effect.localClear, Effect.remoteClear]
    ∧ (handleHomelandClear true rk e).2
        = [Effect.localClearHomeland, Effect.remoteClearHomeland]
    ∧ (handleHomelandSelect true rk1 rk2 e c).2
        = Effect.localSetHomeland c.alpha3 :: Effect.remoteSetHomeland c.alpha3 ::
          (if e.uiSelected.contains c.alpha3 then
            [Effect.localRemove c.alpha3, Effect.remoteRemove c.alpha3]
           else []) := by
  have hguard : (match e.uiHomeland with
      | some h => decide (h.alpha3 = c.alpha3)
      | none => false) = false := by
    cases hh : e.uiHomeland with
    | none => rfl
    | some h => simp [hnc h hh]
  refine ⟨?_, ?_, ?_, ?_, ?_, ?_, ?_, ?_⟩
  · cases rk <;>
      simp [handleCountrySelect, hguard, svcSaveCountrySelection]
  · simp only [handleCountrySelect, hguard, Bool.false_eq_true, if_false,
      svcSaveCountrySelection, if_true]
    exact ⟨toSelected c, mem_addCountry e.localSels c, rfl⟩
  · simp [handleCountrySelect, hguard, svcSaveCountrySelection]
  · simp [handleCountrySelect, hguard, svcSaveCountrySelection]
  · cases rk <;>
      simp [handleCountryDeselect, svcRemoveCountrySelection]
  · cases rk <;>
      simp [handleClearAll, svcClearAllCountrySelections]
  · cases rk <;>
      simp [handleHomelandClear, svcClearHomeland]
  · by_cases hsel : e.uiSelected.contains c.alpha3 = true
    · have hmem : c.alpha3 ∈ e.uiSelected := by simpa using hsel
      cases rk1 <;> cases rk2 <;>
        simp [handleHomelandSelect, svcSetHomeland,
          svcRemoveCountrySelection, hsel, hmem]
    · have hmem : c.alpha3 ∉ e.uiSelected := by simpa using hsel
      have hself : e.uiSelected.contains c.alpha3 = false := by
        simpa using hmem
      cases rk1 <;> cases rk2 <;>
        simp [handleHomelandSelect, svcSetHomeland,
          svcRemoveCountrySelection, hself, hmem]

/-- Witness for C9 at a concrete input: no homeland is set, the remote
mirror write fails, and the local store still contains the new selection. -/
theorem C9_local_write_before_remote_witness :
    (handleCountrySelect true false envFraDeu
        { name := "Germany", alpha3 := "DEU" }).2
      = [Effect.localAdd "DEU", Effect.remoteSave "DEU"]
    ∧ (∃ rec ∈ (handleCountrySelect true false envFraDeu
        { name := "Germany", alpha3 := "DEU" }).1.localSels,
        rec.alpha3 = "DEU") := by
  have h := C9_local_write_before_remote false false false envFraDeu
    { name := "Germany", alpha3 := "DEU" } "FRA"
    (fun h hh => nomatch hh)
  exact ⟨h.1, h.2.1⟩

theorem syncLocalToRemote_spec (ps : List SelectedCountry)
    (locals : List SelectedCountry) (rs : List String)
    (hnd : (locals.map (fun c => c.alpha3)).Nodup)
    (hguard : ∀ lc ∈ locals,
      ps.any (fun pc => pc.alpha3 = lc.alpha3) = false → lc.alpha3 ∉ rs) :
    syncLocalToRemote ps locals rs =
      (((locals.filter (fun lc =>
            !(ps.any (fun pc => pc.alpha3 = lc.alpha3)))).map
          (fun c => c.alpha3)).reverse ++ rs,
       (locals.filter (fun lc =>
            !(ps.any (fun pc => pc.alpha3 = lc.alpha3)))).map
          (fun c => c.alpha3)) := by
  induction locals generalizing rs with
  | nil => rfl
  | cons lc rest ih =>
    simp only [List.map_cons, List.nodup_cons] at hnd
    by_cases hany : ps.any (fun pc => pc.alpha3 = lc.alpha3) = true
    · have := ih rs hnd.2
        (fun lc' hlc' h => hguard lc' (List.mem_cons_of_mem _ hlc') h)
      simp [syncLocalToRemote, hany, List.filter_cons, this]
    · have hany' : ps.any (fun pc => pc.alpha3 = lc.alpha3) = false := by
        simpa using hany
      have hnotin : lc.alpha3 ∉ rs :=
        hguard lc (List.mem_cons_self _ _) hany'
      have hcontains : rs.contains lc.alpha3 = false := by
        simpa using hnotin
      have hguard' : ∀ lc' ∈ rest,
          ps.any (fun pc => pc.alpha3 = lc'.alpha3) = false →
          lc'.alpha3 ∉ lc.alpha3 :: rs := by
        intro lc' hlc' h hmem
        rcases List.mem_cons.mp hmem with heq | hmem'
        · exact hnd.1 (List.mem_map.mpr ⟨lc', hlc', heq⟩)
        · exact hguard lc' (List.mem_cons_of_mem _ hlc') h hmem'
      have hsave : svcSaveCountrySelection true rs
          { name := lc.name, alpha3 := lc.alpha3 } = Except.ok (lc.alpha3 :: rs) := by
        simp [svcSaveCountrySelection, hnotin]
      have := ih (lc.alpha3 :: rs) hnd.2 hguard'
      simp [syncLocalToRemote, hany', hsave,
        List.filter_cons, this, List.reverse_cons, List.append_assoc]

theorem rebuildSelected (catalog : String → Option String)
    (xs : List SelectedCountry)
    (h : ∀ rec ∈ xs, rec.id = rec.alpha3 ∧ catalog rec.alpha3 = some rec.name) :
    ((xs.map (fun c => c.alpha3)).filterMap (alpha3ToCountry catalog)).map
        toSelected = xs := by
  induction xs with
  | nil => rfl
  | cons rec rest ih =>
    obtain ⟨hid, hcat⟩ := h rec (List.mem_cons_self _ _)
    have hres : alpha3ToCountry catalog rec.alpha3
        = some { name := rec.name, alpha3 := rec.alpha3 } := by
      simp [alpha3ToCountry, hcat]
    have htail := ih (fun q hq => h q (List.mem_cons_of_mem _ hq))
    rw [List.filterMap_map] at htail
    cases rec with
    | mk i n a =>
      simp only at hid
      simp [List.map_cons, List.filterMap_cons, hres, toSelected, htail, hid]

theorem mapSet_of_fresh (m : List (String × SelectedCountry)) (k : String)
    (v : SelectedCountry)
    (h : ∀ p ∈ m, (p : String × SelectedCountry).1 ≠ k) :
    mapSet m k v = m ++ [(k, v)] := by
  induction m with
  | nil => rfl
  | cons p rest ih =>
    obtain ⟨a, b⟩ := p
    have hak : a ≠ k := h (a, b) (List.mem_cons_self _ _)
    simp [mapSet, hak, ih (fun q hq => h q (List.mem_cons_of_mem _ hq))]

theorem foldl_mapSet_fresh (cs : List SelectedCountry)
    (m : List (String × SelectedCountry))
    (hnd : (cs.map (fun c => c.alpha3)).Nodup)
    (hfresh : ∀ c ∈ cs, ∀ p ∈ m, (p : String × SelectedCountry).1 ≠ c.alpha3) :
    cs.foldl (fun m c => mapSet m c.alpha3 c) m
      = m ++ cs.map (fun c => (c.alpha3, c)) := by
  induction cs generalizing m with
  | nil => simp
  | cons c rest ih =>
    simp only [List.map_cons, List.nodup_cons] at hnd
    have hstep : mapSet m c.alpha3 c = m ++ [(c.alpha3, c)] :=
      mapSet_of_fresh m c.alpha3 c
        (fun p hp => hfresh c (List.mem_cons_self _ _) p hp)
    have hfresh' : ∀ c' ∈ rest, ∀ p ∈ m ++ [(c.alpha3, c)],
        (p : String × SelectedCountry).1 ≠ c'.alpha3 := by
      intro c' hc' p hp
      rcases List.mem_append.mp hp with hm | hone
      · exact hfresh c' (List.mem_cons_of_mem _ hc') p hm
      · have : p = (c.alpha3, c) := by simpa using hone
        subst this
        intro hcontr
        exact hnd.1 (List.mem_map.mpr ⟨c', hc', hcontr.symm⟩)
    simp only [List.foldl_cons, hstep, ih _ hnd.2 hfresh',
      List.append_assoc, List.singleton_append, List.map_cons]

theorem mapSet_eq_self (m : List (String × SelectedCountry)) (k : String)
    (v : SelectedCountry) (h : lookupKey m k = some v) : mapSet m k v = m := by
  induction m with
  | nil => simp [lookupKey] at h
  | cons p rest ih =>
    obtain ⟨a, b⟩ := p
    by_cases hak : a = k
    · subst hak
      have hb : b = v := by simpa [lookupKey] using h
      subst hb
      simp [mapSet]
    · simp only [lookupKey, hak, if_false] at h
      simp [mapSet, hak, ih h]

theorem foldl_mapSet_eq_self (xs : List SelectedCountry)
    (m : List (String × SelectedCountry))
    (h : ∀ c ∈ xs, lookupKey m c.alpha3 = some c) :
    xs.foldl (fun m c => mapSet m c.alpha3 c) m = m := by
  induction xs with
  | nil => rfl
  | cons c rest ih =>
    simp only [List.foldl_cons,
      mapSet_eq_self m c.alpha3 c (h c (List.mem_cons_self _ _))]
    exact ih (fun q hq => h q (List.mem_cons_of_mem _ hq))

theorem lookupKey_assoc_of_mem (l : List SelectedCountry)
    (c : SelectedCountry) (hnd : (l.map (fun x => x.alpha3)).Nodup)
    (hc : c ∈ l) :
    lookupKey (l.map (fun x => (x.alpha3, x))) c.alpha3 = some c := by
  induction l with
  | nil => cases hc
  | cons d rest ih =>
    simp only [List.map_cons, List.nodup_cons] at hnd
    by_cases hdc : d.alpha3 = c.alpha3
    · rcases List.mem_cons.mp hc with rfl | hmem
      · simp [lookupKey, hdc]
      · exfalso
        apply hnd.1
        rw [hdc]
        exact List.mem_map.mpr ⟨c, hmem, rfl⟩
    · rcases List.mem_cons.mp hc with rfl | hmem
      · exact absurd rfl hdc
      · simp [lookupKey, hdc, ih hnd.2 hmem]

theorem sync_components (catalog : String → Option String)
    (rs : List String) (e : Env) :
    (syncWithPocketbase catalog true (Except.ok rs) e).merged
        = mergedSelections e.localSels
            ((rs.filterMap (alpha3ToCountry catalog)).map toSelected)
    ∧ (syncWithPocketbase catalog true (Except.ok rs) e).saveCalls
        = (syncLocalToRemote
            ((rs.filterMap (alpha3ToCountry catalog)).map toSelected)
            e.localSels e.remoteSels).2
    ∧ (syncWithPocketbase catalog true (Except.ok rs) e).env.remoteSels
        = (syncLocalToRemote
            ((rs.filterMap (alpha3ToCountry catalog)).map toSelected)
            e.localSels e.remoteSels).1
    ∧ (syncWithPocketbase catalog true (Except.ok rs) e).env.localSels
        = e.localSels := by
  refine ⟨rfl, rfl, rfl, rfl⟩

/-- C2: running `syncWithPocketbase` twice in a row with no intervening
mutation (the second run reads exactly the state the first run left)
yields the same merged selection list on both runs, issues zero
`saveCountrySelection` calls on the second run, and leaves the remote
record set unchanged.  Hypotheses: the local store is keyed by code
(`id = alpha3`, no duplicate codes) and every locally stored record
carries its catalog display name — which is how the mutation handlers
create local records. -/
theorem C2_sync_idempotent (catalog : String → Option String) (e : Env)
    (hloc : ∀ rec ∈ e.localSels,
      rec.id = rec.alpha3 ∧ catalog rec.alpha3 = some rec.name)
    (hnd : (e.localSels.map (fun rec => rec.alpha3)).Nodup) :
    (syncWithPocketbase catalog true
        (Except.ok (syncWithPocketbase catalog true
          (Except.ok e.remoteSels) e).env.remoteSels)
        (syncWithPocketbase catalog true (Except.ok e.remoteSels) e).env).merged
      = (syncWithPocketbase catalog true (Except.ok e.remoteSels) e).merged
    ∧ (syncWithPocketbase catalog true
        (Except.ok (syncWithPocketbase catalog true
          (Except.ok e.remoteSels) e).env.remoteSels)
        (syncWithPocketbase catalog true (Except.ok e.remoteSels) e).env).saveCalls
      = []
    ∧ (syncWithPocketbase catalog true
        (Except.ok (syncWithPocketbase catalog true
          (Except.ok e.remoteSels) e).env.remoteSels)
        (syncWithPocketbase catalog true (Except.ok e.remoteSels) e).env).env.remoteSels
      = (syncWithPocketbase catalog true
          (Except.ok e.remoteSels) e).env.remoteSels := by
  obtain ⟨h1m, h1s, h1r, h1l⟩ := sync_components catalog e.remoteSels e
  -- abbreviations (spelled out where used):
  --   ps1      := (e.remoteSels.filterMap (alpha3ToCountry catalog)).map toSelected
  --   newL     := e.localSels.filter (fun lc => !(ps1.any (fun pc => pc.alpha3 = lc.alpha3)))
  --   newCodes := newL.map (fun c => c.alpha3)
  --   remote2  := newCodes.reverse ++ e.remoteSels
  have hguard1 : ∀ lc ∈ e.localSels,
      (((e.remoteSels.filterMap (alpha3ToCountry catalog)).map toSelected).any
        (fun pc => pc.alpha3 = lc.alpha3)) = false → lc.alpha3 ∉ e.remoteSels := by
    intro lc hlc hany hmem
    obtain ⟨hid, hcat⟩ := hloc lc hlc
    have hmemPs : toSelected { name := lc.name, alpha3 := lc.alpha3 }
        ∈ (e.remoteSels.filterMap (alpha3ToCountry catalog)).map toSelected :=
      List.mem_map.mpr ⟨{ name := lc.name, alpha3 := lc.alpha3 },
        List.mem_filterMap.mpr
          ⟨lc.alpha3, hmem, by simp [alpha3ToCountry, hcat]⟩, rfl⟩
    have htrue : (((e.remoteSels.filterMap (alpha3ToCountry catalog)).map
        toSelected).any (fun pc => pc.alpha3 = lc.alpha3)) = true :=
      List.any_eq_true.mpr ⟨_, hmemPs, by simp [toSelected]⟩
    rw [hany] at htrue
    exact Bool.false_ne_true htrue
  have hpush1 := syncLocalToRemote_spec
    ((e.remoteSels.filterMap (alpha3ToCountry catalog)).map toSelected)
    e.localSels e.remoteSels hnd hguard1
  -- the remote record list after the first run
  have hremote2 : (syncWithPocketbase catalog true
      (Except.ok e.remoteSels) e).env.remoteSels
      = ((e.localSels.filter (fun lc =>
          !(((e.remoteSels.filterMap (alpha3ToCountry catalog)).map
            toSelected).any (fun pc => pc.alpha3 = lc.alpha3)))).map
          (fun c => c.alpha3)).reverse ++ e.remoteSels := by
    rw [h1r, hpush1]
  -- the remote snapshot of the second run
  have hps2 : ((((e.localSels.filter (fun lc =>
        !(((e.remoteSels.filterMap (alpha3ToCountry catalog)).map
          toSelected).any (fun pc => pc.alpha3 = lc.alpha3)))).map
        (fun c => c.alpha3)).reverse ++ e.remoteSels).filterMap
          (alpha3ToCountry catalog)).map toSelected
      = (e.localSels.filter (fun lc =>
          !(((e.remoteSels.filterMap (alpha3ToCountry catalog)).map
            toSelected).any (fun pc => pc.alpha3 = lc.alpha3)))).reverse
        ++ (e.remoteSels.filterMap (alpha3ToCountry catalog)).map toSelected := by
    rw [List.filterMap_append, List.map_append]
    congr 1
    have hrev : ((e.localSels.filter (fun lc =>
        !(((e.remoteSels.filterMap (alpha3ToCountry catalog)).map
          toSelected).any (fun pc => pc.alpha3 = lc.alpha3)))).map
        (fun c => c.alpha3)).reverse
        = ((e.localSels.filter (fun lc =>
            !(((e.remoteSels.filterMap (alpha3ToCountry catalog)).map
              toSelected).any (fun pc => pc.alpha3 = lc.alpha3)))).reverse).map
            (fun c => c.alpha3) := by
      rw [List.map_reverse]
    rw [hrev]
    exact rebuildSelected catalog _
      (fun rec hrec => hloc rec
        (List.mem_filter.mp (List.mem_reverse.mp hrec)).1)
  obtain ⟨h2m, h2s, h2r, _h2l⟩ := sync_components catalog
    ((syncWithPocketbase catalog true (Except.ok e.remoteSels) e).env.remoteSels)
    ((syncWithPocketbase catalog true (Except.ok e.remoteSels) e).env)
  rw [h1l, hremote2, hps2] at h2m h2s h2r
  have hbase : e.localSels.foldl (fun m c => mapSet m c.alpha3 c) []
      = e.localSels.map (fun c => (c.alpha3, c)) := by
    have := foldl_mapSet_fresh e.localSels [] hnd
      (fun c _hc p hp => absurd hp (List.not_mem_nil p))
    simpa using this
  have hnoop : ((e.localSels.filter (fun lc =>
      !(((e.remoteSels.filterMap (alpha3ToCountry catalog)).map
        toSelected).any (fun pc => pc.alpha3 = lc.alpha3)))).reverse).foldl
        (fun m c => mapSet m c.alpha3 c)
        (e.localSels.foldl (fun m c => mapSet m c.alpha3 c) [])
      = e.localSels.foldl (fun m c => mapSet m c.alpha3 c) [] := by
    apply foldl_mapSet_eq_self
    intro c hc
    rw [hbase]
    exact lookupKey_assoc_of_mem e.localSels c hnd
      (List.mem_filter.mp (List.mem_reverse.mp hc)).1
  have hmergeEq : mergedSelections e.localSels
      ((e.localSels.filter (fun lc =>
        !(((e.remoteSels.filterMap (alpha3ToCountry catalog)).map
          toSelected).any (fun pc => pc.alpha3 = lc.alpha3)))).reverse
        ++ (e.remoteSels.filterMap (alpha3ToCountry catalog)).map toSelected)
      = mergedSelections e.localSels
          ((e.remoteSels.filterMap (alpha3ToCountry catalog)).map toSelected) := by
    unfold mergedSelections buildCountryMap
    rw [List.foldl_append, hnoop]
  have hall : ∀ lc ∈ e.localSels,
      (((e.localSels.filter (fun x =>
        !(((e.remoteSels.filterMap (alpha3ToCountry catalog)).map
          toSelected).any (fun pc => pc.alpha3 = x.alpha3)))).reverse
        ++ (e.remoteSels.filterMap (alpha3ToCountry catalog)).map
          toSelected).any (fun pc => pc.alpha3 = lc.alpha3)) = true := by
    intro lc hlc
    rw [List.any_append]
    by_cases hP : (((e.remoteSels.filterMap (alpha3ToCountry catalog)).map
        toSelected).any (fun pc => pc.alpha3 = lc.alpha3)) = true
    · rw [hP]
      simp
    · have hPf : (((e.remoteSels.filterMap (alpha3ToCountry catalog)).map
          toSelected).any (fun pc => pc.alpha3 = lc.alpha3)) = false :=
        Bool.eq_false_iff.mpr hP
      have hmemNew : lc ∈ e.localSels.filter (fun x =>
          !(((e.remoteSels.filterMap (alpha3ToCountry catalog)).map
            toSelected).any (fun pc => pc.alpha3 = x.alpha3))) :=
        List.mem_filter.mpr ⟨hlc, by simp [hPf]⟩
      have hleft : ((e.localSels.filter (fun x =>
          !(((e.remoteSels.filterMap (alpha3ToCountry catalog)).map
            toSelected).any (fun pc => pc.alpha3 = x.alpha3)))).reverse).any
            (fun pc => pc.alpha3 = lc.alpha3) = true :=
        List.any_eq_true.mpr ⟨lc, List.mem_reverse.mpr hmemNew, by simp⟩
      rw [hleft]
      simp
  have hfilter : e.localSels.filter (fun lc =>
      !(((e.localSels.filter (fun x =>
        !(((e.remoteSels.filterMap (alpha3ToCountry catalog)).map
          toSelected).any (fun pc => pc.alpha3 = x.alpha3)))).reverse
        ++ (e.remoteSels.filterMap (alpha3ToCountry catalog)).map
          toSelected).any (fun pc => pc.alpha3 = lc.alpha3))) = [] := by
    rw [List.filter_eq_nil_iff]
    intro lc hlc
    simp [hall lc hlc]
  have hguard2 : ∀ lc ∈ e.localSels,
      (((e.localSels.filter (fun x =>
        !(((e.remoteSels.filterMap (alpha3ToCountry catalog)).map
          toSelected).any (fun pc => pc.alpha3 = x.alpha3)))).reverse
        ++ (e.remoteSels.filterMap (alpha3ToCountry catalog)).map
          toSelected).any (fun pc => pc.alpha3 = lc.alpha3)) = false →
      lc.alpha3 ∉ ((e.localSels.filter (fun x =>
        !(((e.remoteSels.filterMap (alpha3ToCountry catalog)).map
          toSelected).any (fun pc => pc.alpha3 = x.alpha3)))).map
          (fun c => c.alpha3)).reverse ++ e.remoteSels := by
    intro lc hlc hfalse
    rw [hall lc hlc] at hfalse
    simp at hfalse
  have hspec2 := syncLocalToRemote_spec
    ((e.localSels.filter (fun x =>
      !(((e.remoteSels.filterMap (alpha3ToCountry catalog)).map
        toSelected).any (fun pc => pc.alpha3 = x.alpha3)))).reverse
      ++ (e.remoteSels.filterMap (alpha3ToCountry catalog)).map toSelected)
    e.localSels
    (((e.localSels.filter (fun x =>
      !(((e.remoteSels.filterMap (alpha3ToCountry catalog)).map
        toSelected).any (fun pc => pc.alpha3 = x.alpha3)))).map
        (fun c => c.alpha3)).reverse ++ e.remoteSels)
    hnd hguard2
  rw [hfilter] at hspec2
  simp only [List.map_nil, List.reverse_nil, List.nil_append] at hspec2
  refine ⟨?_, ?_, ?_⟩
  · rw [hremote2, h2m, h1m]
    exact hmergeEq
  · rw [hremote2, h2s, hspec2]
  · rw [hremote2, h2r, hspec2]

/-- Witness for C2 at a concrete input: Local = {FRA}, Remote = {DEU};
after the first reconciliation pushed `FRA` upward, a second reconciliation
issues no `saveCountrySelection` call and yields the same merged list. -/
theorem C2_sync_idempotent_witness :
    (syncWithPocketbase demoCatalog true
        (Except.ok (syncWithPocketbase demoCatalog true
          (Except.ok envFraDeu.remoteSels) envFraDeu).env.remoteSels)
        (syncWithPocketbase demoCatalog true
          (Except.ok envFraDeu.remoteSels) envFraDeu).env).saveCalls = []
    ∧ (syncWithPocketbase demoCatalog true
        (Except.ok (syncWithPocketbase demoCatalog true
          (Except.ok envFraDeu.remoteSels) envFraDeu).env.remoteSels)
        (syncWithPocketbase demoCatalog true
          (Except.ok envFraDeu.remoteSels) envFraDeu).env).merged
      = (syncWithPocketbase demoCatalog true
          (Except.ok envFraDeu.remoteSels) envFraDeu).merged := by
  have h := C2_sync_idempotent demoCatalog envFraDeu (by decide) (by decide)
  exact ⟨h.2.1, h.1⟩
